import Mathlib

/-!
# Verification of the BestBuy laptop-scraper crawl engine

Shallow embedding of the crawl-orchestration core of `scraper.py` /
`utils.py` (repository `WebScrapingAssignment`), together with proofs
and refutations of the specification claims about it.

Modelling conventions:
* The remote browser surface (Selenium driver) is non-deterministic; it
  is modelled by explicit outcome oracles (which elements a page has,
  whether a navigation attempt raises, what a detail page contains).
* Python exceptions are modelled with `Except`; a Python function that
  swallows an exception class is a total Lean function.
* Python `float` values extracted from price/rating text are modelled
  as `ℚ`; no claim depends on floating-point rounding.
* Python `set[str]` is modelled as `Finset String`; where the code
  *enumerates* a set (`list(all_urls)`), the hash-dependent enumeration
  order is an explicit parameter.
-/

namespace WebScrape

/-! ## utils.parse_price (utils.py lines 27-32) -/

/-- A character kept by `re.sub(r"[^0-9\.\,]", "", text)`: digits, period, comma. -/
def pricePatternChar (c : Char) : Bool := c.isDigit || c == '.' || c == ','

/-- The cleaned character list of `utils.parse_price`: first the `re.sub`
keeping digits/periods/commas, then `.replace(",", "")` removing commas. -/
def priceCleaned (text : String) : List Char :=
  (text.data.filter pricePatternChar).filter (fun c => !(c == ','))

/-- Value of a (possibly empty) digit string, most significant first. -/
def digitsToNat (l : List Char) : Nat :=
  l.foldl (fun a c => 10 * a + (c.toNat - 48)) 0

/-- Python `float(s)` restricted to strings made of digits and periods
(the only characters `priceCleaned` can produce): it succeeds exactly when
the string is nonempty, contains at most one period and at least one
digit (so `float("")`, `float(".")`, `float("1.2.3")` raise `ValueError`,
while `float("1.")` and `float(".5")` succeed).  The numeric value is
returned as an exact rational. -/
def pyFloatDigitsDot (l : List Char) : Option ℚ :=
  if l.any Char.isDigit && decide (l.count '.' ≤ 1) then
    let intPart := l.takeWhile (fun c => !(c == '.'))
    let fracPart := (l.dropWhile (fun c => !(c == '.'))).drop 1
    some ((digitsToNat intPart : ℚ) + (digitsToNat fracPart : ℚ) / (10 : ℚ) ^ fracPart.length)
  else
    none

/-- `utils.parse_price`: `None` on falsy (empty) input, else clean the text
and attempt `float`, returning `None` on `ValueError`. -/
def parse_price (text : String) : Option ℚ :=
  if text = "" then none else pyFloatDigitsDot (priceCleaned text)

/-! ## The product-URL pattern `PRODUCT_HREF_RE` (scraper.py lines 41-44)

`re.search` with pattern
`(/product/[^/]+/[A-Z0-9]{6,}(\b|/)|/site/.+?/.*?/p\?skuId=\d+)` and
`re.IGNORECASE`.  Case-insensitivity is modelled by lowering the subject
(our URLs are ASCII) and writing the literals in lower case;
`[A-Z0-9]` with `IGNORECASE` is the alphanumeric ASCII class. -/

/-- Python regex word character (`\w` over ASCII): alphanumeric or underscore. -/
def isWordChar (c : Char) : Bool := c.isAlphanum || c == '_'

/-- Length of the maximal alphanumeric prefix (the run `[A-Z0-9]{6,}` can consume). -/
def alnumRunLen : List Char → Nat
  | [] => 0
  | c :: t => if c.isAlphanum then alnumRunLen t + 1 else 0

/-- Match of the tail `[A-Z0-9]` repeated at least 6 times, then `\b` or `/`,
at the start of `l`.  Backtracking analysis: stopping the run before its
maximal length `L` puts a word character next, failing both alternatives,
so a match exists iff `L ≥ 6` and the character after the full run (if any)
is a non-word character or a slash. -/
def alt1Tail (l : List Char) : Bool :=
  decide (6 ≤ alnumRunLen l) &&
    (match l.drop (alnumRunLen l) with
     | [] => true
     | c :: _ => !(isWordChar c) || c == '/')

/-- Match of `[^/]+/` then the run-tail, at the start of `l`: the segment
`[^/]+` is slash-free, so the following literal slash is necessarily the
first slash of `l`, which must exist at index at least 1. -/
def alt1After (l : List Char) : Bool :=
  match l.dropWhile (fun c => !(c == '/')) with
  | '/' :: l2 => !(l.takeWhile (fun c => !(c == '/'))).isEmpty && alt1Tail l2
  | _ => false

/-- First alternative `/product/[^/]+/[A-Z0-9]{6,}(\b|/)` matched at the
start of the (lowered) character list. -/
def alt1At (l : List Char) : Bool :=
  ("/product/".data).isPrefixOf l && alt1After (l.drop 9)

/-- The literal `/p\?skuId=\d+` head (lowered): the 9-character literal then
at least one digit. -/
def alt2Lit (l : List Char) : Bool :=
  ("/p?skuid=".data).isPrefixOf l &&
    (match l.drop 9 with
     | c :: _ => c.isDigit
     | [] => false)

/-- Scan for the second alternative's body after `/site/`: the matched text
is `X ++ "/" ++ Y ++ "/p?skuid=" ++ digits` with `X` nonempty and `X`, `Y`
arbitrary newline-free text (`.` does not match a newline).  Hence: some
occurrence of the literal whose preceding prefix `P` contains a slash at
index at least 1 and no newline.  `pos` is the index of the current suffix,
`seenSlash` records a slash at index at least 1 in the consumed prefix,
`noNl` that the consumed prefix is newline-free. -/
def alt2Go : List Char → Nat → Bool → Bool → Bool
  | [], _, _, _ => false
  | c :: t, pos, seenSlash, noNl =>
    (seenSlash && noNl && alt2Lit (c :: t)) ||
      alt2Go t (pos + 1) (seenSlash || (decide (1 ≤ pos) && c == '/')) (noNl && !(c == '\n'))

/-- Second alternative `/site/.+?/.*?/p\?skuId=\d+` matched at the start of
the (lowered) character list. -/
def alt2At (l : List Char) : Bool :=
  ("/site/".data).isPrefixOf l && alt2Go (l.drop 6) 0 false true

/-- Either alternative matched at the start of the list. -/
def productHrefMatchAt (l : List Char) : Bool := alt1At l || alt2At l

/-- `re.search` semantics: a match starting at some suffix. -/
def productHrefSearchAux : List Char → Bool
  | [] => false
  | c :: t => productHrefMatchAt (c :: t) || productHrefSearchAux t

/-- `PRODUCT_HREF_RE.search(href)` as a Boolean (IGNORECASE via lowering;
the URLs at hand are ASCII, where `Char.toLower` agrees with Python). -/
def productHrefSearch (s : String) : Bool :=
  productHrefSearchAux (s.data.map Char.toLower)

/-! ## Candidate-link extraction (scraper.py lines 418-441) -/

/-- `href.split("#")[0]`: the prefix before the first `#` (the whole string
when there is none). -/
def stripFragment (href : String) : String :=
  String.mk (href.data.takeWhile (fun c => !(c == '#')))

/-- Python substring containment `needle in hay` on character lists. -/
def listContains : List Char → List Char → Bool
  | [], needle => needle.isEmpty
  | c :: t, needle => needle.isPrefixOf (c :: t) || listContains t needle

/-- The filter applied to a candidate href after fragment stripping:
`"bestbuy.com" in href and PRODUCT_HREF_RE.search(href)` (the containment
test is case-sensitive). -/
def productHrefOk (href : String) : Bool :=
  listContains href.data ("bestbuy.com".data) && productHrefSearch href

/-- `_extract_product_urls_from_results` body for one card.  A card is
modelled by the list of its anchor hrefs in DOM order.  The primary branch
takes the card's first anchor (`card.find_element`), which raises only when
the card has no anchor at all; in that case the fallback loop iterates the
same (empty) anchor list and adds nothing.  When the first anchor exists
but its href fails the filter, nothing is added and the fallback is *not*
taken (no exception was raised). -/
def extractFromCard (card : List String) : Option String :=
  match card with
  | [] => none
  | a :: _ =>
    let h := stripFragment a
    if productHrefOk h then some h else none

/-- `urls.add(href)` for the (at most one) href a card contributes. -/
def extractStep (s : Finset String) (card : List String) : Finset String :=
  match extractFromCard card with
  | some h => insert h s
  | none => s

/-- `_extract_product_urls_from_results` (lines 418-441): the `urls` set
accumulated over the page's cards.  Deduplication is plain string equality
of the fragment-stripped hrefs (`urls.add(href)` on a Python `set`). -/
def extract_product_urls_from_results (cards : List (List String)) : Finset String :=
  cards.foldl extractStep ∅

/-- One `all_urls |= _extract_product_urls_from_results(driver)` merge step
of `list_products` (lines 516 and 533) for a page rendered as `cards`. -/
def harvestMerge (s : Finset String) (cards : List (List String)) : Finset String :=
  s ∪ extract_product_urls_from_results cards

/-- Splitting a character list at every occurrence of a separator
(Python `str.split` with a one-character separator). -/
def splitOnChar (sep : Char) : List Char → List (List Char)
  | [] => [[]]
  | c :: t =>
    if c == sep then [] :: splitOnChar sep t
    else
      match splitOnChar sep t with
      | h :: r => (c :: h) :: r
      | [] => [[c]]

/-- Joining string pieces with a one-character separator. -/
def joinWithChar (sep : Char) : List (List Char) → List Char
  | [] => []
  | [h] => h
  | h :: t => h ++ sep :: joinWithChar sep t

/-- Code-point lexicographic order on character lists (the order Python's
`sorted` uses on strings). -/
def listCharLeB : List Char → List Char → Bool
  | [], _ => true
  | _ :: _, [] => false
  | a :: as, b :: bs => if a == b then listCharLeB as bs else decide (a.toNat < b.toNat)

/-- Python's string order, on Lean strings. -/
def urlLe (a b : String) : Prop := listCharLeB a.data b.data = true

instance : DecidableRel urlLe :=
  fun a b => inferInstanceAs (Decidable (listCharLeB a.data b.data = true))

instance : IsTotal String urlLe := by
  constructor
  have H : ∀ u v : List Char, listCharLeB u v = true ∨ listCharLeB v u = true := by
    intro u
    induction u with
    | nil => intro v; left; rfl
    | cons x xs ih =>
      intro v
      cases v with
      | nil => right; rfl
      | cons y ys =>
        by_cases hxy : x = y
        · subst hxy
          rcases ih ys with h | h
          · left; simpa [listCharLeB] using h
          · right; simpa [listCharLeB] using h
        · have h1 : (x == y) = false := by simp [hxy]
          have h2 : (y == x) = false := by simp [Ne.symm hxy]
          have hne : x.toNat ≠ y.toNat := fun hc => hxy (Char.ext (UInt32.ext hc))
          rcases Nat.lt_or_ge x.toNat y.toNat with hlt | hge
          · left; simp [listCharLeB, h1, hlt]
          · have hgt : y.toNat < x.toNat := by omega
            right; simp [listCharLeB, h2, hgt]
  exact fun a b => H a.data b.data

instance : IsTrans String urlLe := by
  constructor
  have H : ∀ u v w : List Char, listCharLeB u v = true → listCharLeB v w = true →
      listCharLeB u w = true := by
    intro u
    induction u with
    | nil => intro v w _ _; rfl
    | cons x xs ih =>
      intro v w hab hbc
      cases v with
      | nil => simp [listCharLeB] at hab
      | cons y ys =>
        cases w with
        | nil => simp [listCharLeB] at hbc
        | cons z zs =>
          by_cases hxy : x = y
          · subst hxy
            by_cases hyz : x = z
            · subst hyz
              simp only [listCharLeB, beq_self_eq_true, if_true] at hab hbc ⊢
              exact ih ys zs hab hbc
            · have h1 : (x == z) = false := by simp [hyz]
              simp only [listCharLeB, beq_self_eq_true, if_true] at hab
              simp only [listCharLeB, h1, if_false] at hbc ⊢
              exact hbc
          · have h1 : (x == y) = false := by simp [hxy]
            simp only [listCharLeB, h1, if_false] at hab
            have hxylt : x.toNat < y.toNat := of_decide_eq_true hab
            by_cases hyz : y = z
            · subst hyz
              simp only [listCharLeB, h1, if_false]
              exact decide_eq_true hxylt
            · have h2 : (y == z) = false := by simp [hyz]
              simp only [listCharLeB, h2, if_false] at hbc
              have hyzlt : y.toNat < z.toNat := of_decide_eq_true hbc
              have hxz : x.toNat < z.toNat := Nat.lt_trans hxylt hyzlt
              have h3 : (x == z) = false := by
                have hne : x ≠ z := fun hc => by subst hc; omega
                simp [hne]
              simp only [listCharLeB, h3, if_false]
              exact decide_eq_true hxz
  exact fun a b c hab hbc => H a.data b.data c.data hab hbc

/-- Modelled from the spec's words, for refinement comparison only (the code
has no such function): the spec's normalized URL is scheme+host+path with
the query parameters sorted and the fragment stripped. -/
def specNormalizeUrl (u : String) : String :=
  let noFrag := u.data.takeWhile (fun c => !(c == '#'))
  let base := noFrag.takeWhile (fun c => !(c == '?'))
  match noFrag.dropWhile (fun c => !(c == '?')) with
  | _ :: q =>
    String.mk (base ++ '?' ::
      joinWithChar '&'
        (List.insertionSort (fun a b => listCharLeB a b = true) (splitOnChar '&' q)))
  | [] => String.mk noFrag

/-! ## Harvest finalization (scraper.py lines 548-557) -/

/-- Final lines of `list_products`: `if len(all_urls) > max_products:
all_urls = set(list(all_urls)[:max_products])` followed by building the
item list from `sorted(all_urls)`.  `enum` is `list(all_urls)` — the
hash-dependent iteration order of the Python set, a list of distinct URLs
in an order the code does not control. -/
def list_products_finalize (enum : List String) (max_products : Nat) : List String :=
  List.insertionSort urlLe
    (if max_products < enum.length then enum.take max_products else enum)

/-- The spec's words, for comparison: the `n` lexicographically smallest
elements of the harvested URLs. -/
def nSmallest (l : List String) (n : Nat) : List String :=
  (List.insertionSort urlLe l).take n

/-! ## Detail records and fetch_product_detail (scraper.py lines 797-852) -/

/-- The dict returned by `fetch_product_detail`: a `skip` flag, the url, the
optionally extracted name/price/rating, the spec table and the review
snippets (text with optional score). -/
structure Detail where
  skip : Bool
  url : String
  name : Option String
  price : Option ℚ
  rating : Option ℚ
  specs : List (String × String)
  reviews : List (String × Option ℚ)
deriving DecidableEq, Repr

/-- The skip-marked record `{"skip": True, "url": url, "name": None, ...}`
returned both for a non-laptop page (line 809) and after the final retry
fails (line 846). -/
def skipRecord (url : String) : Detail :=
  ⟨true, url, none, none, none, [], []⟩

/-- What one navigation attempt of `fetch_product_detail` runs into, as an
oracle value: a `WebDriverException` somewhere in the guarded block
(`webErr`), an exception outside the `except WebDriverException` class
(`otherErr`, which propagates to the caller), or a rendered detail page
with its category-validation verdict and extractable fields. -/
inductive AttemptOutcome where
  | webErr : AttemptOutcome
  | otherErr : AttemptOutcome
  | page : Bool → Option String → Option ℚ → Option ℚ →
      List (String × String) → List (String × Option ℚ) → AttemptOutcome

/-- `fetch_product_detail(url, attempt, max_attempts)` (lines 798-852):
on a `WebDriverException` it re-enters itself with `attempt + 1` while
`attempt < max_attempts`, and after the final retry returns the same
skip-marked dict a non-laptop page gets; `out k` is what attempt `k` runs
into. -/
def fetch_product_detail (out : Nat → AttemptOutcome) (url : String)
    (attempt max_attempts : Nat) : Except Unit Detail :=
  match out attempt with
  | .webErr =>
    if h : attempt < max_attempts then
      fetch_product_detail out url (attempt + 1) max_attempts
    else
      .ok (skipRecord url)
  | .otherErr => .error ()
  | .page isLaptop name price rating specs reviews =>
    if !isLaptop then .ok (skipRecord url)
    else .ok ⟨false, url, name, price, rating, specs, reviews⟩
termination_by max_attempts - attempt
decreasing_by omega

/-- Number of attempts (navigations of the detail url) `fetch_product_detail`
performs, counted over the same recursion. -/
def fetch_attempt_count (out : Nat → AttemptOutcome) (attempt max_attempts : Nat) : Nat :=
  match out attempt with
  | .webErr =>
    if h : attempt < max_attempts then
      1 + fetch_attempt_count out (attempt + 1) max_attempts
    else 1
  | _ => 1
termination_by max_attempts - attempt
decreasing_by omega

/-! ## Product seeds and enrich_products (scraper.py lines 473-557, 856-919) -/

/-- A product dict: seeded by `list_products` (line 556) with `name`,
`price`, `rating`, `reviews = 0`, `url`, and possibly extended by
`enrich_products` with `skip` and `specs`; after enrichment `reviews`
holds the review count. -/
structure Product where
  name : Option String := none
  price : Option ℚ := none
  rating : Option ℚ := none
  reviews : Nat := 0
  url : String
  skip : Bool := false
  specs : List (String × String) := []
deriving DecidableEq, Repr

instance : Inhabited Product := ⟨{ url := "" }⟩

/-- A seed item of `list_products`:
`{"name": None, "price": None, "rating": None, "reviews": 0, "url": u}`. -/
def seedProduct (u : String) : Product := { url := u }

/-- The per-item merge of `enrich_products` (lines 885-891 and 902-908):
a skip-flagged detail only sets `skip`; otherwise every detail key except
`skip` is copied onto the product and `reviews` is replaced by the length
of the copied snippet list. -/
def mergeDetail (p : Product) (d : Detail) : Product :=
  if d.skip then { p with skip := true }
  else
    { p with
      url := d.url, name := d.name, price := d.price, rating := d.rating,
      specs := d.specs, reviews := d.reviews.length }

/-- Handling of one fetch outcome in `enrich_products`: an exception from
the task (`fut.result()` / the direct call) is caught and marks the
product skipped (lines 892-894 and 909-911); a returned detail is merged. -/
def applyOutcome (p : Product) (r : Except Unit Detail) : Product :=
  match r with
  | .error _ => { p with skip := true }
  | .ok d => mergeDetail p d

/-- Enrichment of a single product from its seed url. -/
def enrichOne (fetch : String → Except Unit Detail) (p : Product) : Product :=
  applyOutcome p (fetch p.url)

/-- `enrich_products` (lines 856-919): each product is enriched from its
url (both the sequential branch and, as proved below, the threaded branch
produce exactly this), and the function returns only the products not
marked `skip` (`kept = [p for p in products if not p.get("skip")]`,
line 915).  Empty input returns the empty list. -/
def enrich_products (fetch : String → Except Unit Detail) (products : List Product) :
    List Product :=
  (products.map (enrichOne fetch)).filter (fun p => !p.skip)

/-- One completion event of the threaded branch's `as_completed` loop
(lines 881-896): the future for slot `i` finishes and its outcome is merged
into `products[i]`.  The url was captured at submit time from the original
seed list (line 880: `ex.submit(guarded_fetch, p["url"])`), while the merge
reads and writes the current slot `i`. -/
def completeOne (fetch : String → Except Unit Detail) (orig : List Product)
    (cur : List Product) (i : Nat) : List Product :=
  cur.set i (applyOutcome (cur.getD i default) (fetch ((orig.getD i default).url)))

/-- The threaded branch of `enrich_products` for a given completion order
of the futures: slots are filled one completion at a time, then the
non-skipped products are kept. -/
def enrich_products_mt (fetch : String → Except Unit Detail) (products : List Product)
    (order : List Nat) : List Product :=
  ((order.foldl (completeOne fetch products) products).filter (fun p => !p.skip))

/-! ## Filters (scraper.py lines 566-711) -/

/-- Which page elements the listing page exposes to the filter phase, and
whether the driver-level unguarded script/attribute calls inside
`_set_price_range` succeed.  Element presence models the corresponding
locator succeeding within its wait. -/
structure PageElems where
  sidebar : Bool
  ratingInput : Bool
  brandInput : String → Bool
  brandLabelInput : String → Bool
  priceFacet : Bool
  minInput : Bool
  maxInput : Bool
  setButton : Bool
  scriptsOk : Bool

/-- `_click_checkbox_by` (lines 566-577): locate, scroll, click — the whole
body is inside `try/except`, so it never raises; it returns whether the
element was found and clicked. -/
def click_checkbox_by (present : Bool) : Bool := present

/-- `_set_price_range` (lines 595-651).  Unguarded operations, in order:
the facet-container wait (line 597), the three `find_element` calls for the
min input, max input and Set button (lines 600-602), and the bare
`execute_script`/`get_attribute` driver calls (lines 604, 612, 617,
623-625).  Each raises out of the function when it fails; everything else
(clearing, the final click, the grid-refresh wait) is guarded or
non-raising. -/
def set_price_range (p : PageElems) : Except String Unit :=
  if !p.priceFacet then .error "currentprice facet wait timed out"
  else if !p.minInput then .error "min price input not found"
  else if !p.maxInput then .error "max price input not found"
  else if !p.setButton then .error "set button not found"
  else if !p.scriptsOk then .error "unguarded driver script call failed"
  else .ok ()

/-- `apply_filters` (lines 654-711): an unguarded sidebar wait (line 659),
the best-effort rating click, the best-effort brand clicks with a label
fallback (`if not ok:` line 699), and finally `_set_price_range`
(line 711) — called with no exception guard, so its failures propagate. -/
def apply_filters (p : PageElems) (brands : List String) : Except String Unit :=
  if !p.sidebar then .error "sidebar-container wait timed out"
  else
    let _ratingOk := click_checkbox_by p.ratingInput
    let _brandOks := brands.map (fun b =>
      click_checkbox_by (p.brandInput b) || click_checkbox_by (p.brandLabelInput b))
    set_price_range p

/-- `SETTINGS.top_brands` (config.py line 26). -/
def settingsTopBrands : List String := ["Apple", "Dell", "HP"]

/-- Whether an `Except` result is a success. -/
def exceptOk {ε α : Type} : Except ε α → Bool
  | .ok _ => true
  | .error _ => false

/-! ## Navigation and the run entry point (scraper.py lines 279-308, 923-947) -/

/-- Outcome of one entry-URL attempt of `navigate_to_laptops`:
`getError` — `driver.get(url)` (line 296, *outside* the `try`) raises;
`notReady` — `_assert_laptop_plp_loaded` times out, which the
`except TimeoutException` at line 305 absorbs (the splash-handling re-check
folds into this case or into `ready`);
`ready` — the page is recognized as a laptop listing. -/
inductive UrlAttempt where
  | getError : UrlAttempt
  | notReady : UrlAttempt
  | ready : UrlAttempt
deriving DecidableEq, Repr

/-- `navigate_to_laptops` (lines 279-308) over the outcomes of the entry
URLs (`PLP_URLS`) in their fixed order: a ready page returns, an absorbed
timeout moves to the next URL, a raising `driver.get` propagates
immediately, and exhausting the list raises the final `TimeoutException`. -/
def navigate_to_laptops : List UrlAttempt → Except String Unit
  | [] => .error "Could not load BestBuy laptops PLP (blocked or template mismatch)."
  | .getError :: _ => .error "WebDriverException raised by driver.get"
  | .notReady :: rest => navigate_to_laptops rest
  | .ready :: _ => .ok ()

/-- Everything non-deterministic a run encounters, as one environment:
whether `seed_location`'s `driver.get` (line 194, unguarded) succeeds, the
entry-URL outcomes, the listing page's elements for the filter phase,
whether the unguarded waits and driver calls of the listing-harvest phase
succeed (`_wait(driver, By.CSS_SELECTOR, "body")` at line 479,
`driver.get`/`smart_scroll` inside the page loop), the set-iteration order
of the harvested URLs, the item cap, and the per-url detail-fetch
outcomes. -/
structure RunEnv where
  seedOk : Bool
  navAttempts : List UrlAttempt
  page : PageElems
  listingOk : Bool
  enum : List String
  maxProducts : Nat
  fetchOutcomes : String → Nat → AttemptOutcome

/-- `run_scrape` (lines 923-947): seed the location, navigate, apply
filters, harvest the listing, enrich, then write the JSON and return the
records.  Any exception escaping a phase aborts the run before the output
file is written (the `finally` block only quits the driver), so the run
yields a record list exactly when every phase completes; the JSON is
written exactly in that case (lines 944-946). -/
def run_scrape (env : RunEnv) : Except String (List Product) :=
  if !env.seedOk then .error "seed_location driver.get raised"
  else
    match navigate_to_laptops env.navAttempts with
    | .error e => .error e
    | .ok _ =>
      match apply_filters env.page settingsTopBrands with
      | .error e => .error e
      | .ok _ =>
        if !env.listingOk then .error "listing harvest wait raised"
        else
          .ok (enrich_products
            (fun u => fetch_product_detail (env.fetchOutcomes u) u 1 2)
            ((list_products_finalize env.enum env.maxProducts).map seedProduct))

/-! ## The detail-fetch worker pool (scraper.py lines 798-852 and 865-880)

`enrich_products` admits worker tasks through `gate = Semaphore(max_parallel)`
(line 871); `guarded_fetch` (lines 873-875) acquires the gate, runs
`fetch_product_detail`, and releases the gate on exit.  Inside one gate
hold, `fetch_product_detail` builds a browser session (line 801) and quits
it in its `finally` (lines 847-852) — but the retry is a recursive call
*inside* the `except` block (lines 843-845), so the outer frame's `finally`
runs only after the recursive call has returned: during a retry the failed
attempt's session and the retry's session are open at the same time.  With
`max_attempts = 2` the recursion depth, and hence the number of sessions
one gate-holding worker can have open, is at most 2.  The pool is modelled
as a counter transition system over these phases. -/

/-- Counters of the worker pool: the semaphore's internal count, the
submitted-but-waiting tasks, the workers holding the gate with zero, one,
or two open browser sessions, and the finished tasks.  `holding2` is the
retry overlap: the first attempt's driver is still open (its `finally` has
not run yet) while the retry frame's driver is. -/
structure PoolState where
  sem : Nat
  waiting : Nat
  holding0 : Nat
  holding1 : Nat
  holding2 : Nat
  finished : Nat
deriving DecidableEq, Repr

/-- Number of automation sessions currently open across the pool. -/
def openSessions (s : PoolState) : Nat := s.holding1 + 2 * s.holding2

/-- Initial pool state: `W` submitted tasks, `Semaphore(C)` untouched. -/
def initPoolState (W C : Nat) : PoolState :=
  ⟨C, W, 0, 0, 0, 0⟩

/-- Interleaved steps of the pool: a waiting worker may enter `with gate`
only when the semaphore count is positive (acquiring decrements it); inside
the gate it builds its first browser session (`_build_driver`, line 801);
on a `WebDriverException` with retry budget left it re-enters
`fetch_product_detail` (line 845) and builds the retry's session while the
failed attempt's driver is still open; the retry frame's `finally` quits
that inner session when the retry finishes; the outer frame's `finally`
quits the first session; and on leaving the `with` block the worker
releases the gate (incrementing the count). -/
inductive PoolStep : PoolState → PoolState → Prop
  | acquire (s : PoolState) (hw : 0 < s.waiting) (hs : 0 < s.sem) :
      PoolStep s { s with waiting := s.waiting - 1, sem := s.sem - 1,
                          holding0 := s.holding0 + 1 }
  | buildFirst (s : PoolState) (h : 0 < s.holding0) :
      PoolStep s { s with holding0 := s.holding0 - 1, holding1 := s.holding1 + 1 }
  | buildRetry (s : PoolState) (h : 0 < s.holding1) :
      PoolStep s { s with holding1 := s.holding1 - 1, holding2 := s.holding2 + 1 }
  | quitRetry (s : PoolState) (h : 0 < s.holding2) :
      PoolStep s { s with holding2 := s.holding2 - 1, holding1 := s.holding1 + 1 }
  | quitFirst (s : PoolState) (h : 0 < s.holding1) :
      PoolStep s { s with holding1 := s.holding1 - 1, holding0 := s.holding0 + 1 }
  | release (s : PoolState) (h : 0 < s.holding0) :
      PoolStep s { s with holding0 := s.holding0 - 1, sem := s.sem + 1,
                          finished := s.finished + 1 }

/-- States the pool can reach from `initPoolState W C` by any interleaving. -/
inductive PoolReachable (W C : Nat) : PoolState → Prop
  | init : PoolReachable W C (initPoolState W C)
  | step {s t : PoolState} : PoolReachable W C s → PoolStep s t → PoolReachable W C t

/-! ## Concrete instances used by the refutations and witnesses -/

/-- A harvested product link whose query is `a=1&b=2`. -/
def urlQueryAB : String := "https://www.bestbuy.com/product/foo/ABC123?a=1&b=2"

/-- The same product link with the query parameters in the other order. -/
def urlQueryBA : String := "https://www.bestbuy.com/product/foo/ABC123?b=2&a=1"

/-- Detail-fetch oracle: every attempt raises a `WebDriverException`. -/
def outAllWebErr : Nat → AttemptOutcome := fun _ => .webErr

/-- Detail-fetch oracle: every attempt renders a page failing the
laptop-category validation. -/
def outNonLaptop : Nat → AttemptOutcome := fun _ => .page false none none none [] []

/-- Detail-fetch oracle: every attempt renders a laptop page carrying a
price but no extractable name (no matching `h1`). -/
def outLaptopNoName : Nat → AttemptOutcome :=
  fun _ => .page true none (some 999) none [] []

/-- A fetch function that always returns a skip-marked record. -/
def fetchAlwaysSkip : String → Except Unit Detail := fun u => .ok (skipRecord u)

/-- A listing page exposing every element except the price facet. -/
def pageNoPriceFacet : PageElems :=
  ⟨true, true, fun _ => true, fun _ => true, false, true, true, true, true⟩

/-- A listing page exposing every element. -/
def pageAllGood : PageElems :=
  ⟨true, true, fun _ => true, fun _ => true, true, true, true, true, true⟩

/-- A run whose only failure is the missing price facet: seeding succeeds,
the first entry URL is ready, the harvest waits succeed. -/
def envFilterFailOnly : RunEnv :=
  ⟨true, [.ready], pageNoPriceFacet, true, [], 600, fun _ _ => .webErr⟩

/-- A run in which every entry URL times out without becoming ready. -/
def envNavAllTimeout : RunEnv :=
  ⟨true, [.notReady, .notReady], pageAllGood, true, [], 600, fun _ _ => .webErr⟩

/-! ## General lemmas about the embedded operations -/

/-- `exceptOk` on a success. -/
theorem exceptOk_ok {ε α : Type} (a : α) : exceptOk (ε := ε) (Except.ok a) = true := rfl

/-- `exceptOk` on a failure. -/
theorem exceptOk_error {ε α : Type} (e : ε) : exceptOk (α := α) (Except.error e) = false := rfl

/-- Accumulating the per-card extraction is union with the set of
extracted hrefs. -/
theorem foldl_extractStep (cards : List (List String)) :
    ∀ s : Finset String,
      cards.foldl extractStep s = s ∪ (cards.filterMap extractFromCard).toFinset := by
  induction cards with
  | nil => intro s; simp
  | cons c t ih =>
    intro s
    rw [List.foldl_cons, ih]
    cases hc : extractFromCard c with
    | none => simp [extractStep, hc, List.filterMap_cons]
    | some h =>
      simp [extractStep, hc, List.filterMap_cons, Finset.insert_union, Finset.union_insert]

/-- One completion event only touches slot `i`. -/
theorem completeOne_getElem (fetch : String → Except Unit Detail)
    (orig cur : List Product) (i j : Nat) :
    (completeOne fetch orig cur i)[j]? =
      if i = j then
        (if i < cur.length then
          some (applyOutcome (cur.getD i default) (fetch ((orig.getD i default).url)))
         else none)
      else cur[j]? := by
  simp [completeOne, List.getElem?_set]

/-- Folding the completion events of a duplicate-free index list rewrites
exactly the listed slots, each from its original seed. -/
theorem foldl_completeOne (fetch : String → Except Unit Detail) (orig : List Product) :
    ∀ (todo : List Nat) (cur : List Product), todo.Nodup →
      cur.length = orig.length →
      (∀ i ∈ todo, i < orig.length ∧ cur[i]? = orig[i]?) →
      ∀ j, (todo.foldl (completeOne fetch orig) cur)[j]? =
        if j ∈ todo then some (enrichOne fetch (orig.getD j default)) else cur[j]? := by
  intro todo
  induction todo with
  | nil => intro cur _ _ _ j; simp
  | cons i todo ih =>
    intro cur hnd hlen hmem j
    rw [List.foldl_cons]
    obtain ⟨hi_lt, hi_eq⟩ := hmem i (List.mem_cons_self i todo)
    have hni : i ∉ todo := (List.nodup_cons.mp hnd).1
    have hnd2 : todo.Nodup := (List.nodup_cons.mp hnd).2
    have hlen2 : (completeOne fetch orig cur i).length = orig.length := by
      simp [completeOne, hlen]
    have hmem2 : ∀ a ∈ todo, a < orig.length ∧ (completeOne fetch orig cur i)[a]? = orig[a]? := by
      intro a ha
      refine ⟨(hmem a (List.mem_cons_of_mem i ha)).1, ?_⟩
      have hne : ¬ (i = a) := fun hia => hni (hia ▸ ha)
      rw [completeOne_getElem, if_neg hne]
      exact (hmem a (List.mem_cons_of_mem i ha)).2
    rw [ih (completeOne fetch orig cur i) hnd2 hlen2 hmem2 j]
    by_cases hj : j ∈ todo
    · rw [if_pos hj, if_pos (List.mem_cons_of_mem i hj)]
    · rw [if_neg hj]
      by_cases hij : i = j
      · subst hij
        rw [if_pos (List.mem_cons_self i todo), completeOne_getElem, if_pos rfl,
          if_pos (by omega)]
        have hgd : cur.getD i default = orig.getD i default := by
          rw [List.getD_eq_getElem?_getD, List.getD_eq_getElem?_getD, hi_eq]
        rw [hgd]
        rfl
      · have hnotin : j ∉ i :: todo := by
          simp only [List.mem_cons, not_or]
          exact ⟨fun h => hij h.symm, hj⟩
        rw [if_neg hnotin, completeOne_getElem, if_neg hij]

/-- Any completion order that is a permutation of the slot indices produces
the sequential enrichment result. -/
theorem enrich_mt_eq_seq (fetch : String → Except Unit Detail) (products : List Product)
    (order : List Nat) (hperm : order.Perm (List.range products.length)) :
    enrich_products_mt fetch products order = enrich_products fetch products := by
  have hnd : order.Nodup := hperm.nodup_iff.mpr (List.nodup_range _)
  have hmemiff : ∀ i, i ∈ order ↔ i < products.length := by
    intro i; rw [hperm.mem_iff, List.mem_range]
  have hfold := foldl_completeOne fetch products order products hnd rfl
    (fun i hi => ⟨(hmemiff i).mp hi, rfl⟩)
  have hlist : order.foldl (completeOne fetch products) products
      = products.map (enrichOne fetch) := by
    apply List.ext_getElem?
    intro j
    rw [hfold j, List.getElem?_map]
    by_cases hjlt : j < products.length
    · rw [if_pos ((hmemiff j).mpr hjlt), List.getElem?_eq_getElem hjlt]
      have hgd : products.getD j default = products.get ⟨j, hjlt⟩ := by
        rw [List.getD_eq_getElem?_getD, List.getElem?_eq_getElem hjlt]
        rfl
      rw [hgd]
      rfl
    · rw [if_neg (fun h => hjlt ((hmemiff j).mp h)),
        List.getElem?_eq_none (Nat.le_of_not_lt hjlt)]
      rfl
  unfold enrich_products_mt enrich_products
  rw [hlist]

/-- Attempt-count bound for the retry recursion, by induction on the
remaining budget. -/
theorem fetch_attempt_count_le (out : Nat → AttemptOutcome) :
    ∀ (k a m : Nat), m - a ≤ k → a ≤ m → fetch_attempt_count out a m ≤ m + 1 - a := by
  intro k
  induction k with
  | zero =>
    intro a m h1 h2
    have ham : a = m := by omega
    subst ham
    unfold fetch_attempt_count
    split
    · rw [dif_neg (Nat.lt_irrefl a)]
      omega
    · omega
  | succ kk ih =>
    intro a m h1 h2
    unfold fetch_attempt_count
    split
    · by_cases hlt : a < m
      · rw [dif_pos hlt]
        have := ih (a + 1) m (by omega) (by omega)
        omega
      · rw [dif_neg hlt]
        omega
    · omega

/-- When every attempt in the window raises a `WebDriverException`, the
fetch returns the skip-marked record after its final retry. -/
theorem fetch_all_weberr (out : Nat → AttemptOutcome) (url : String) :
    ∀ (k a m : Nat), m - a ≤ k → a ≤ m → (∀ j, a ≤ j → j ≤ m → out j = .webErr) →
      fetch_product_detail out url a m = .ok (skipRecord url) := by
  intro k
  induction k with
  | zero =>
    intro a m h1 h2 hall
    have ham : a = m := by omega
    subst ham
    have hone := hall a le_rfl le_rfl
    unfold fetch_product_detail
    split
    · rw [dif_neg (Nat.lt_irrefl a)]
    · rename_i heq
      rw [hone] at heq
      cases heq
    · rename_i il nm pr rt sp rv heq
      rw [hone] at heq
      cases heq
  | succ kk ih =>
    intro a m h1 h2 hall
    have hone := hall a le_rfl h2
    unfold fetch_product_detail
    split
    · by_cases hlt : a < m
      · rw [dif_pos hlt]
        exact ih (a + 1) m (by omega) (by omega) (fun j hj1 hj2 => hall j (by omega) hj2)
      · rw [dif_neg hlt]
    · rename_i heq
      rw [hone] at heq
      cases heq
    · rename_i il nm pr rt sp rv heq
      rw [hone] at heq
      cases heq

/-- A fetch result that is not skip-marked comes from some attempt in the
window that rendered a laptop-validated page, and copies that page's
fields. -/
theorem fetch_ok_nonskip (out : Nat → AttemptOutcome) (url : String) :
    ∀ (k a m : Nat), m - a ≤ k → a ≤ m → ∀ d : Detail,
      fetch_product_detail out url a m = .ok d → d.skip = false →
      ∃ kk nm pr rt sp rv, a ≤ kk ∧ kk ≤ m ∧ out kk = .page true nm pr rt sp rv
        ∧ d = ⟨false, url, nm, pr, rt, sp, rv⟩ := by
  intro k
  induction k with
  | zero =>
    intro a m h1 h2 d hd hskip
    have ham : a = m := by omega
    subst ham
    unfold fetch_product_detail at hd
    split at hd
    · rw [dif_neg (Nat.lt_irrefl a)] at hd
      cases hd
      simp [skipRecord] at hskip
    · cases hd
    · rename_i il nm pr rt sp rv heq
      cases il
      · simp only [Bool.not_false, if_true] at hd
        cases hd
        simp [skipRecord] at hskip
      · simp only [Bool.not_true, Bool.false_eq_true, if_false] at hd
        cases hd
        exact ⟨a, nm, pr, rt, sp, rv, le_rfl, h2, heq, rfl⟩
  | succ kk ih =>
    intro a m h1 h2 d hd hskip
    unfold fetch_product_detail at hd
    split at hd
    · by_cases hlt : a < m
      · rw [dif_pos hlt] at hd
        obtain ⟨j, nm, pr, rt, sp, rv, hj1, hj2, hpage, hdet⟩ :=
          ih (a + 1) m (by omega) (by omega) d hd hskip
        exact ⟨j, nm, pr, rt, sp, rv, by omega, hj2, hpage, hdet⟩
      · rw [dif_neg hlt] at hd
        cases hd
        simp [skipRecord] at hskip
    · cases hd
    · rename_i il nm pr rt sp rv heq
      cases il
      · simp only [Bool.not_false, if_true] at hd
        cases hd
        simp [skipRecord] at hskip
      · simp only [Bool.not_true, Bool.false_eq_true, if_false] at hd
        cases hd
        exact ⟨a, nm, pr, rt, sp, rv, le_rfl, h2, heq, rfl⟩

/-- The pool's conservation law: the semaphore count plus the workers
currently inside the gate always equals the gate capacity. -/
theorem pool_invariant (W C : Nat) (s : PoolState) (h : PoolReachable W C s) :
    s.sem + s.holding0 + s.holding1 + s.holding2 = C := by
  induction h with
  | init => simp [initPoolState]
  | step hr hstep ih => cases hstep <;> simp_all <;> omega

/-! ## The claims -/

/-- C1, counterexample: `enrich_products` does not return one record per
candidate — a single candidate whose fetch yields a skip-marked record
produces an empty output, so the output length differs from the input
length. -/
theorem c1_counterexample :
    (enrich_products fetchAlwaysSkip [seedProduct "u"]).length
      ≠ ([seedProduct "u"]).length := by
  decide

/-- C1, amended: `enrich_products` returns exactly the enriched records not
marked `skip` — its length is the number of non-skipped candidates, hence
at most (not always equal to) the input length — and empty input yields an
empty output without error. -/
theorem c1_enrich_output_length (fetch : String → Except Unit Detail)
    (products : List Product) :
    (enrich_products fetch products).length
        = (products.map (enrichOne fetch)).countP (fun p => !p.skip)
    ∧ (enrich_products fetch products).length ≤ products.length
    ∧ enrich_products fetch [] = [] := by
  refine ⟨(List.countP_eq_length_filter _ _).symm, ?_, rfl⟩
  calc (enrich_products fetch products).length
      ≤ (products.map (enrichOne fetch)).length := List.length_filter_le _ _
    _ = products.length := List.length_map _ _

/-- C2, counterexample: with `max_products = 1` and the two distinct
harvested URLs `"b"`, `"a"`, the finalization keeps the *first* URL of the
set's iteration order and only then sorts, so it returns `["b"]` instead of
the lexicographically smallest `["a"]`; two iteration orders of the same
set give different results, so the truncation is not deterministic. -/
theorem c2_counterexample :
    list_products_finalize ["b", "a"] 1 = ["b"]
    ∧ nSmallest ["b", "a"] 1 = ["a"]
    ∧ list_products_finalize ["b", "a"] 1 ≠ nSmallest ["b", "a"] 1
    ∧ list_products_finalize ["b", "a"] 1 ≠ list_products_finalize ["a", "b"] 1 := by
  refine ⟨by decide, by decide, by decide, by decide⟩

/-- C2, amended: when the harvested set exceeds the cap, `list_products`
returns the lexicographic sort of the first `max_products` URLs in the
set's (hash-dependent) iteration order — a sorted subset of the harvest of
size `min enum.length max_products`, but not necessarily the smallest URLs
and not independent of the iteration order; when the cap is not exceeded it
is exactly the sorted harvest. -/
theorem c2_cap_sort_properties (enum : List String) (n : Nat) :
    List.Sorted urlLe (list_products_finalize enum n)
    ∧ (list_products_finalize enum n).length = min enum.length n
    ∧ (enum.length ≤ n → list_products_finalize enum n = List.insertionSort urlLe enum)
    ∧ ∀ x ∈ list_products_finalize enum n, x ∈ enum := by
  refine ⟨List.sorted_insertionSort urlLe _, ?_, ?_, ?_⟩
  · unfold list_products_finalize
    by_cases h : n < enum.length
    · rw [if_pos h, List.length_insertionSort, List.length_take]
      omega
    · rw [if_neg h, List.length_insertionSort]
      omega
  · intro h
    unfold list_products_finalize
    rw [if_neg (by omega)]
  · intro x hx
    unfold list_products_finalize at hx
    have hx2 := (List.perm_insertionSort urlLe _).mem_iff.mp hx
    by_cases h : n < enum.length
    · rw [if_pos h] at hx2
      exact List.take_subset n enum hx2
    · rwa [if_neg h] at hx2

/-- C2, witness for the amended theorem at a concrete input. -/
theorem c2_witness :
    list_products_finalize ["a"] 1 = List.insertionSort urlLe ["a"] :=
  (c2_cap_sort_properties ["a"] 1).2.2.1 (by decide)

/-- C3, counterexample: the two links differ only in the order of their
query parameters (the spec's normalization maps them to the same URL), yet
harvesting one card with each yields a candidate set of size two — the code
deduplicates by exact string equality after fragment stripping, without
query normalization. -/
theorem c3_counterexample :
    specNormalizeUrl urlQueryAB = specNormalizeUrl urlQueryBA
    ∧ (extract_product_urls_from_results [[urlQueryAB], [urlQueryBA]]).card = 2 := by
  refine ⟨by decide, by decide⟩

/-- C3, amended: candidate-link equality is exact URL-string equality after
fragment stripping (no query-parameter normalization); with that equality
the harvested set never contains duplicates, and harvesting the same page
twice never increases the candidate set — merging a page's extraction a
second time is a no-op, and extracting a duplicated card list yields the
same set as extracting it once. -/
theorem c3_dedup_idempotent (s : Finset String) (cards : List (List String)) :
    harvestMerge (harvestMerge s cards) cards = harvestMerge s cards
    ∧ extract_product_urls_from_results (cards ++ cards)
        = extract_product_urls_from_results cards := by
  constructor
  · unfold harvestMerge
    rw [Finset.union_assoc, Finset.union_self]
  · unfold extract_product_urls_from_results
    rw [foldl_extractStep, foldl_extractStep, List.filterMap_append, List.toFinset_append]
    simp [Finset.union_assoc]

/-- C4, counterexample: on a ready page exposing everything except the
price facet, `apply_filters` raises out of the price-range step — the
failure is not absorbed at the component boundary. -/
theorem c4_counterexample :
    apply_filters pageNoPriceFacet settingsTopBrands
      = .error "currentprice facet wait timed out" := rfl

/-- C4, amended: rating-filter and brand-filter failures are absorbed at
the component boundary (they never make `apply_filters` raise), but
`apply_filters` succeeds exactly when the sidebar wait and every unguarded
step of the price-range widget succeed — a price-range failure propagates
and aborts the run instead of only degrading filter precision. -/
theorem c4_filter_failure_boundary (p : PageElems) (brands : List String) :
    exceptOk (apply_filters p brands)
      = (p.sidebar && p.priceFacet && p.minInput && p.maxInput
          && p.setButton && p.scriptsOk) := by
  obtain ⟨sb, ri, bi, bl, pf, mi, ma, st, so⟩ := p
  cases sb <;> cases pf <;> cases mi <;> cases ma <;> cases st <;> cases so <;> rfl

/-- C5, counterexample: there is no distinct `Failed` status — a fetch that
fails after its final retry returns the very same skip-marked record a
content-relevance skip produces; and an accepted (non-skip) record can have
an absent name. -/
theorem c5_counterexample :
    fetch_product_detail outAllWebErr "u" 1 2 = .ok (skipRecord "u")
    ∧ fetch_product_detail outAllWebErr "u" 1 2 = fetch_product_detail outNonLaptop "u" 1 2
    ∧ (∃ d : Detail, fetch_product_detail outLaptopNoName "u" 1 2 = .ok d
        ∧ d.skip = false ∧ d.name = none) := by
  refine ⟨?_, ?_, ⟨⟨false, "u", none, some 999, none, [], []⟩, ?_, rfl, rfl⟩⟩ <;>
    simp [fetch_product_detail, outAllWebErr, outNonLaptop, outLaptopNoName, skipRecord]

/-- C5, amended: every record carries the single boolean `skip` status; if
every attempt in the retry window fails with an automation error the result
is the skip-marked record (identical to a content-relevance skip, not a
distinct `Failed`), and a non-skip record always comes from an attempt that
rendered a laptop-validated page, whose fields it copies — its name may
still be absent. -/
theorem c5_status_partition (out : Nat → AttemptOutcome) (url : String)
    (a m : Nat) (hm : a ≤ m) :
    ((∀ j, a ≤ j → j ≤ m → out j = .webErr) →
      fetch_product_detail out url a m = .ok (skipRecord url))
    ∧ (∀ d : Detail, fetch_product_detail out url a m = .ok d → d.skip = false →
      ∃ k nm pr rt sp rv, a ≤ k ∧ k ≤ m ∧ out k = .page true nm pr rt sp rv
        ∧ d = ⟨false, url, nm, pr, rt, sp, rv⟩) :=
  ⟨fun hall => fetch_all_weberr out url (m - a) a m le_rfl hm hall,
   fun d hd hskip => fetch_ok_nonskip out url (m - a) a m le_rfl hm d hd hskip⟩

/-- C5, witness: the amended theorem applied to the all-failures oracle at
`attempt = 1`, `max_attempts = 2`. -/
theorem c5_witness :
    fetch_product_detail outAllWebErr "u" 1 2 = .ok (skipRecord "u") :=
  (c5_status_partition outAllWebErr "u" 1 2 (by decide)).1 (fun _ _ _ => rfl)

/-- C6, confirmed: `fetch_product_detail` performs at most `max_attempts`
attempts from its entry call at `attempt = 1` (at most `retryBudget + 1 = 2`
with the code's `max_attempts = 2`); the retry recursion terminates because
`attempt` strictly increases up to `max_attempts`; and the total number of
attempts over a candidate list is at most `|candidates| * max_attempts`. -/
theorem c6_retry_bound (out : Nat → AttemptOutcome)
    (outs : String → Nat → AttemptOutcome) (urls : List String)
    (m : Nat) (hm : 1 ≤ m) :
    fetch_attempt_count out 1 m ≤ m
    ∧ fetch_attempt_count out 1 2 ≤ 2
    ∧ (urls.map (fun u => fetch_attempt_count (outs u) 1 m)).sum ≤ urls.length * m := by
  refine ⟨?_, ?_, ?_⟩
  · have := fetch_attempt_count_le out m 1 m (by omega) hm
    omega
  · have := fetch_attempt_count_le out 2 1 2 (by omega) (by omega)
    omega
  · have hb : ∀ x ∈ urls.map (fun u => fetch_attempt_count (outs u) 1 m), x ≤ m := by
      intro x hx
      obtain ⟨u, hu, rfl⟩ := List.mem_map.mp hx
      have := fetch_attempt_count_le (outs u) m 1 m (by omega) hm
      omega
    calc (urls.map (fun u => fetch_attempt_count (outs u) 1 m)).sum
        ≤ (urls.map (fun u => fetch_attempt_count (outs u) 1 m)).length • m :=
          List.sum_le_card_nsmul _ m hb
      _ = urls.length * m := by rw [List.length_map, smul_eq_mul]

/-- C6, witness at the all-failures oracle with `max_attempts = 2`. -/
theorem c6_witness : fetch_attempt_count outAllWebErr 1 2 ≤ 2 :=
  (c6_retry_bound outAllWebErr (fun _ => outAllWebErr) ["u"] 2 (by decide)).1

/-- C7, counterexample: the run can abort with no output even though
navigation succeeded — a price-facet failure aborts it too — and
`navigate_to_laptops` can raise before every candidate entry URL has been
tried: a raising `driver.get` on the first URL propagates immediately even
when the second URL would have been ready. -/
theorem c7_counterexample :
    navigate_to_laptops envFilterFailOnly.navAttempts = .ok ()
    ∧ exceptOk (run_scrape envFilterFailOnly) = false
    ∧ navigate_to_laptops [.getError, .ready]
        = .error "WebDriverException raised by driver.get" :=
  ⟨rfl, rfl, rfl⟩

/-- C7, amended: a navigation failure is fatal — whenever
`navigate_to_laptops` raises, `run_scrape` yields no record list and writes
no output — and when every entry URL merely times out, navigation does
exhaust all of them and then raises; but a raising `driver.get` aborts
navigation early, and navigation success does not guarantee the run
completes. -/
theorem c7_nav_fatal_abort (env : RunEnv) (attempts : List UrlAttempt) :
    (exceptOk (navigate_to_laptops env.navAttempts) = false →
      exceptOk (run_scrape env) = false)
    ∧ ((∀ x ∈ attempts, x = UrlAttempt.notReady) →
      exceptOk (navigate_to_laptops attempts) = false) := by
  constructor
  · intro h
    cases hnav : navigate_to_laptops env.navAttempts with
    | ok u => rw [hnav] at h; exact absurd h (by simp [exceptOk])
    | error e =>
      cases hseed : env.seedOk with
      | false => simp [run_scrape, hseed, exceptOk]
      | true => simp [run_scrape, hseed, hnav, exceptOk]
  · intro h
    induction attempts with
    | nil => rfl
    | cons a t ih =>
      have ha := h a (List.mem_cons_self a t)
      subst ha
      exact ih (fun x hx => h x (List.mem_cons_of_mem _ hx))

/-- C7, witness: a run whose entry URLs all time out aborts with no
result. -/
theorem c7_witness : exceptOk (run_scrape envNavAllTimeout) = false :=
  (c7_nav_fatal_abort envNavAllTimeout [UrlAttempt.notReady, UrlAttempt.notReady]).1
    ((c7_nav_fatal_abort envNavAllTimeout
      [UrlAttempt.notReady, UrlAttempt.notReady]).2 (by decide))

/-- C8, confirmed: each completion writes only its own slot, indexed by the
candidate's harvest-time position, and for every completion order (any
permutation of the slot indices) the assembled output is the same and
equals the sequential harvest-order result. -/
theorem c8_slot_order_independent (fetch : String → Except Unit Detail)
    (products : List Product) (order₁ order₂ : List Nat)
    (h₁ : order₁.Perm (List.range products.length))
    (h₂ : order₂.Perm (List.range products.length)) :
    enrich_products_mt fetch products order₁ = enrich_products_mt fetch products order₂
    ∧ enrich_products_mt fetch products order₁ = enrich_products fetch products :=
  ⟨(enrich_mt_eq_seq fetch products order₁ h₁).trans
      (enrich_mt_eq_seq fetch products order₂ h₂).symm,
   enrich_mt_eq_seq fetch products order₁ h₁⟩

/-- C8, witness at a one-element pool. -/
theorem c8_witness :
    enrich_products_mt fetchAlwaysSkip [seedProduct "u"] [0]
      = enrich_products fetchAlwaysSkip [seedProduct "u"] :=
  (c8_slot_order_independent fetchAlwaysSkip [seedProduct "u"] [0] [0]
    (by decide) (by decide)).2

/-- C9, counterexample: the bound `C` on concurrently open sessions is
false — with `W = C = 1`, after the single admitted worker's first attempt
fails with a `WebDriverException` and the retry builds its session, the
pool reaches a state with two open sessions, exceeding `C = 1`: the retry
recursion runs inside the `except` block, before the `finally` that quits
the failed attempt's driver. -/
theorem c9_counterexample :
    PoolReachable 1 1 ⟨0, 0, 0, 0, 1, 0⟩
    ∧ ¬ (openSessions (⟨0, 0, 0, 0, 1, 0⟩ : PoolState) ≤ 1) :=
  ⟨PoolReachable.step
    (PoolReachable.step
      (PoolReachable.step PoolReachable.init
        (PoolStep.acquire (initPoolState 1 1) (by decide) (by decide)))
      (PoolStep.buildFirst ⟨0, 0, 1, 0, 0, 0⟩ (by decide)))
    (PoolStep.buildRetry ⟨0, 0, 0, 1, 0, 0⟩ (by decide)),
   by decide⟩

/-- C9, amended: in every state the pool can reach, for any worker count
`W ≥ C ≥ 1`, at most `max_attempts * C = 2 * C` automation sessions are
open concurrently: the capacity gate admits at most `C` workers at a time,
and each gate-holding worker has at most two sessions open (the failed
attempt's and its retry's, the recursion depth being bounded by
`max_attempts = 2`) — the spec's bound of `C` itself is exceeded during
retries. -/
theorem c9_concurrency_bound (W C : Nat) (hC : 1 ≤ C) (hW : C ≤ W)
    (s : PoolState) (h : PoolReachable W C s) : openSessions s ≤ 2 * C := by
  have hinv := pool_invariant W C s h
  unfold openSessions
  omega

/-- C9, witness: the retry-overlap state of the one-worker, one-slot pool
satisfies the amended bound. -/
theorem c9_witness : openSessions (⟨0, 0, 0, 0, 1, 0⟩ : PoolState) ≤ 2 * 1 :=
  c9_concurrency_bound 1 1 (by decide) (by decide) _
    (PoolReachable.step
      (PoolReachable.step
        (PoolReachable.step PoolReachable.init
          (PoolStep.acquire (initPoolState 1 1) (by decide) (by decide)))
        (PoolStep.buildFirst ⟨0, 0, 1, 0, 0, 0⟩ (by decide)))
      (PoolStep.buildRetry ⟨0, 0, 0, 1, 0, 0⟩ (by decide)))

/-- C10, confirmed: `parse_price` is total — it returns `None` or a number,
never raising — with `None` on the empty string and on any input whose
retained digit/period characters do not parse as a Python float. -/
theorem c10_parse_price_total (s : String) :
    (s = "" → parse_price s = none)
    ∧ (pyFloatDigitsDot (priceCleaned s) = none → parse_price s = none)
    ∧ (parse_price s = none ∨ ∃ q : ℚ, parse_price s = some q) := by
  refine ⟨fun h => by simp [parse_price, h], fun h => ?_, ?_⟩
  · by_cases hs : s = "" <;> simp [parse_price, hs, h]
  · cases hp : parse_price s with
    | none => exact Or.inl rfl
    | some q => exact Or.inr ⟨q, rfl⟩

/-- C10, witness: an input with no digits yields `None`. -/
theorem c10_witness : parse_price "N/A" = none :=
  (c10_parse_price_total "N/A").2.1 rfl

end WebScrape
